import Mathlib

/-!
Verification development for the training-and-evaluation orchestration layer
of the cs231n semantic-segmentation project (files `train.py` and `main.py`).

The Python code is shallowly embedded: the checkpoint dictionary built by
`Trainer.save_model` and consumed by `Trainer.load_model` becomes a Lean
structure, the file system becomes a finite map from path names to optional
checkpoint records together with an explicit trace of file operations, the
body of `Trainer._train_batch` becomes an ordered event trace recording which
optimizers are zeroed, backpropagated through, gradient-clipped and stepped,
and the autograd dependency structure of the generator loss becomes a small
expression tree with an explicit `detach` barrier.  Opaque tensor payloads
(`state_dict()` blobs) are modelled as abstract tokens, and floating-point
scores as rationals.
-/

namespace SegTrain

/-- Opaque stand-in for a PyTorch `state_dict()` payload (model or optimizer
parameters).  The trainer only ever stores and moves these whole, so an
abstract token is a faithful model. -/
abbrev StateDict := Nat

/-- The checkpoint record written by `Trainer.save_model` (train.py lines
180-198).  The key `total_iters` is read back with
`checkpoint.get('total_iters', None)`, hence it is optional on the reading
side; the three adversarial entries `disc_dict`, `disc_opt` and `gan_reg` are
written together when a discriminator exists and read together under the
single membership test `'disc_dict' in checkpoint`, so they are modelled as
one optional block. -/
structure Checkpoint where
  epoch : Nat
  iter : Nat
  total_iters : Option Nat
  gen_dict : StateDict
  best_mIOU : ℚ
  gen_opt : StateDict
  disc_block : Option (StateDict × StateDict × ℚ)
  deriving DecidableEq, Repr

/-- The mutable trainer state relevant to checkpointing, as initialized by
`Trainer.__init__` (train.py lines 44-54): resume counters, best validation
score, generator parameters and optimizer state, optional discriminator
parameters plus optimizer state (present exactly when adversarial training is
active), and the adversarial regularization weight. -/
structure TrainerState where
  start_iter : Nat
  start_total_iters : Option Nat
  start_epoch : Nat
  best_mIOU : ℚ
  gen_params : StateDict
  gen_opt : StateDict
  disc : Option (StateDict × StateDict)
  gan_reg : ℚ
  deriving DecidableEq, Repr

/-- Fresh trainer state built by `Trainer.__init__` before any resume:
`start_iter = 0`, `start_total_iters = 0`, `start_epoch = 0`,
`best_mIOU = 0` (train.py lines 46-49). -/
def initTrainerState (gen_params gen_opt : StateDict)
    (disc : Option (StateDict × StateDict)) (gan_reg : ℚ) : TrainerState :=
  { start_iter := 0
    start_total_iters := some 0
    start_epoch := 0
    best_mIOU := 0
    gen_params := gen_params
    gen_opt := gen_opt
    disc := disc
    gan_reg := gan_reg }

/-- File-system operations performed by `Trainer.save_model`: a direct
`torch.save` write of a record to a path, a `shutil.copyfile`, and (for
stating the atomic-write property, which the code never uses) a rename. -/
inductive FsOp where
  | write (path : String) (record : Checkpoint)
  | copyfile (src dst : String)
  | rename (src dst : String)
  deriving DecidableEq, Repr

/-- Whether a file operation is a rename. -/
def FsOp.isRename : FsOp → Bool
  | .rename _ _ => true
  | _ => false

/-- The checkpoint dictionary assembled by `Trainer.save_model` (train.py
lines 181-192): it stores `iter + 1` and `total_iters + 1`, the generator
parameter and optimizer dictionaries, the given mIOU as `best_mIOU`, and the
discriminator block exactly when a discriminator exists. -/
def mkSaveDict (s : TrainerState) (iter total_iters epoch : Nat) (mIOU : ℚ) :
    Checkpoint :=
  { epoch := epoch
    iter := iter + 1
    total_iters := some (total_iters + 1)
    gen_dict := s.gen_params
    best_mIOU := mIOU
    gen_opt := s.gen_opt
    disc_block := s.disc.map (fun d => (d.1, d.2, s.gan_reg)) }

/-- The file operations `Trainer.save_model` performs (train.py lines
193-198): one direct write of the record to `last.pth.tar`, followed, when
`is_best`, by a copy of that file to `best.pth.tar`.  Paths are relative to
the experiment directory. -/
def save_model_ops (record : Checkpoint) (is_best : Bool) : List FsOp :=
  [FsOp.write "last.pth.tar" record] ++
    (if is_best then [FsOp.copyfile "last.pth.tar" "best.pth.tar"] else [])

/-- Effect of a list of file operations on a file system (a map from path to
optional record): a write stores the record at the path, a copy duplicates
the source contents at the destination, a rename moves them. -/
def applyOps (fs : String → Option Checkpoint) : List FsOp → (String → Option Checkpoint)
  | [] => fs
  | FsOp.write p c :: rest =>
      applyOps (fun q => if q = p then some c else fs q) rest
  | FsOp.copyfile src dst :: rest =>
      applyOps (fun q => if q = dst then fs src else fs q) rest
  | FsOp.rename src dst :: rest =>
      applyOps (fun q => if q = dst then fs src else if q = src then none else fs q) rest

/-- The path `Trainer.load_model` opens (train.py lines 201-204):
`best.pth.tar` when `load_iters` is `None`, else `str(load_iters) +
'.pth.tar'`.  Paths are relative to the experiment directory. -/
def loadPath (load_iters : Option Nat) : String :=
  match load_iters with
  | none => "best.pth.tar"
  | some n => Nat.repr n ++ ".pth.tar"

/-- The state update performed by `Trainer.load_model` once a checkpoint has
been read (train.py lines 208-218): the four resume fields and the generator
dictionaries always come from the checkpoint; the discriminator, its
optimizer and `gan_reg` are overwritten only when a discriminator exists and
the checkpoint contains a `disc_dict` block, and are left untouched
otherwise. -/
def load_from_checkpoint (s : TrainerState) (c : Checkpoint) : TrainerState :=
  let s1 : TrainerState :=
    { s with
      start_iter := c.iter
      start_total_iters := c.total_iters
      start_epoch := c.epoch
      best_mIOU := c.best_mIOU
      gen_params := c.gen_dict
      gen_opt := c.gen_opt }
  match s.disc, c.disc_block with
  | some _, some (dd, dop, reg) => { s1 with disc := some (dd, dop), gan_reg := reg }
  | _, _ => s1

/-- `Trainer.load_model` (train.py lines 200-222): compute the load path,
and if a file exists there load it, otherwise print a non-fatal message and
leave the state unchanged. -/
def load_model (fs : String → Option Checkpoint) (s : TrainerState)
    (load_iters : Option Nat) : TrainerState :=
  match fs (loadPath load_iters) with
  | some c => load_from_checkpoint s c
  | none => s

/-- The two optimization roles of the adversarial setup. -/
inductive NetRole where
  | generator
  | discriminator
  deriving DecidableEq, Repr

/-- Observable optimizer-related events of one `Trainer._train_batch` call:
zeroing accumulated gradients, backpropagating a loss, clipping the gradient
norm of a network, and applying the optimizer update of a network. -/
inductive TrainEvent where
  | zeroGrad (r : NetRole)
  | backwardLoss (r : NetRole)
  | clipGradNorm (r : NetRole)
  | optStep (r : NetRole)
  deriving DecidableEq, Repr

/-- The ordered event trace of one `Trainer._train_batch` call (train.py
lines 79-112).  Without adversarial training: zero the generator optimizer,
backpropagate the segmentation loss, clip the generator gradients, step the
generator optimizer.  With adversarial training: the same four generator
events for the combined generator loss, followed unconditionally by the
discriminator events (zero, backpropagate `d_loss`, clip, step).  The
function takes no iteration counter because `_train_batch` receives none:
its behavior is the same at every iteration. -/
def trainBatchEvents (train_gan : Bool) : List TrainEvent :=
  if train_gan then
    [TrainEvent.zeroGrad NetRole.generator,
     TrainEvent.backwardLoss NetRole.generator,
     TrainEvent.clipGradNorm NetRole.generator,
     TrainEvent.optStep NetRole.generator,
     TrainEvent.zeroGrad NetRole.discriminator,
     TrainEvent.backwardLoss NetRole.discriminator,
     TrainEvent.clipGradNorm NetRole.discriminator,
     TrainEvent.optStep NetRole.discriminator]
  else
    [TrainEvent.zeroGrad NetRole.generator,
     TrainEvent.backwardLoss NetRole.generator,
     TrainEvent.clipGradNorm NetRole.generator,
     TrainEvent.optStep NetRole.generator]

/-- The event trace of the training step executed at a given global
iteration by `Trainer.train` (train.py lines 138-149): every iteration of
the epoch loop calls `_train_batch`, whose trace does not depend on the
iteration counter. -/
def trainStepEventsAt (train_gan : Bool) (_globalIteration : Nat) : List TrainEvent :=
  trainBatchEvents train_gan

/-- The scheduling decision type of the specified AlternationScheduler. -/
inductive Decision where
  | GENERATOR
  | DISCRIMINATOR
  deriving DecidableEq, Repr

/-- Modelled from the spec: the AlternationScheduler contract, section 4.1
(no such component exists in the code).  Partition the iteration counter
into repeating windows of length `gIters + dIters`; the first `gIters`
iterations of each window select GENERATOR, the remaining `dIters` select
DISCRIMINATOR. -/
def specSchedulerDecide (gIters dIters globalIteration : Nat) : Decision :=
  if globalIteration % (gIters + dIters) < gIters then Decision.GENERATOR
  else Decision.DISCRIMINATOR

/-- Expression tree of the tensors built by the adversarial branch of
`Trainer._train_batch` (train.py lines 86-98), with explicit autograd
`detach` barriers.  `genForward` is `self._gen(data)`, `discForward` applies
the discriminator to an image and a mask expression, `smoothTrueLabels` is
the smoothed real-label tensor from `smooth_labels`, which is constant with
respect to both networks. -/
inductive TExpr where
  | dataInput
  | labelsFlat
  | genForward
  | smoothTrueLabels
  | detach (e : TExpr)
  | sigmoid (e : TExpr)
  | discForward (image mask : TExpr)
  | bce (scores target : TExpr)
  | mce (logits target : TExpr)
  | add (a b : TExpr)
  | smul (c : ℚ) (e : TExpr)
  deriving DecidableEq, Repr

/-- Whether backpropagating through an expression reaches the generator
parameters: `genForward` does, a `detach` barrier stops the traversal, and
every other node propagates to its children.  This is exactly the autograd
reachability that decides whether a loss term contributes gradient to the
generator update. -/
def dependsOnGen : TExpr → Bool
  | TExpr.dataInput => false
  | TExpr.labelsFlat => false
  | TExpr.genForward => true
  | TExpr.smoothTrueLabels => false
  | TExpr.detach _ => false
  | TExpr.sigmoid e => dependsOnGen e
  | TExpr.discForward i m => dependsOnGen i || dependsOnGen m
  | TExpr.bce s t => dependsOnGen s || dependsOnGen t
  | TExpr.mce l t => dependsOnGen l || dependsOnGen t
  | TExpr.add a b => dependsOnGen a || dependsOnGen b
  | TExpr.smul _ e => dependsOnGen e

/-- `converted_mask = nn.functional.sigmoid(gen_out.detach())`
(train.py line 90). -/
def converted_mask : TExpr := TExpr.sigmoid (TExpr.detach TExpr.genForward)

/-- `false_scores = self._disc(data, converted_mask)` (train.py line 92). -/
def false_scores_gen_step : TExpr := TExpr.discForward TExpr.dataInput converted_mask

/-- `segmentation_loss = self._MCEcriterion(gen_out, labels_flat)`
(train.py line 93). -/
def segmentation_loss : TExpr := TExpr.mce TExpr.genForward TExpr.labelsFlat

/-- `g_loss = self._BCEcriterion(false_scores, smooth_true_labels)`
(train.py line 94). -/
def g_loss : TExpr := TExpr.bce false_scores_gen_step TExpr.smoothTrueLabels

/-- `gen_loss = segmentation_loss + self.gan_reg * g_loss`
(train.py line 95), the objective whose `backward()` call precedes the
generator optimizer step. -/
def gen_loss (gan_reg : ℚ) : TExpr :=
  TExpr.add segmentation_loss (TExpr.smul gan_reg g_loss)

/-- The best-score bookkeeping of one evaluation tick in `Trainer.train`
(train.py lines 167-169): raise `best_mIOU` to the new validation score when
strictly larger, then pass `is_best = (best_mIOU == val_mIOU)` to
`save_model`.  Returns the updated running best and the `is_best` flag. -/
def evalTickBest (best val : ℚ) : ℚ × Bool :=
  let b := if best < val then val else best
  (b, decide (b = val))

/-- The `is_best` flags produced by a run of evaluation ticks with the given
validation scores, starting from the given running best. -/
def runEvalTicks (best : ℚ) : List ℚ → List Bool
  | [] => []
  | v :: vs =>
      let r := evalTickBest best v
      r.2 :: runEvalTicks r.1 vs

/-- The running best after folding a list of validation scores, mirroring
the update `if self.best_mIOU < val_mIOU: self.best_mIOU = val_mIOU`. -/
def foldBest (best : ℚ) (vs : List ℚ) : ℚ :=
  vs.foldl (fun b v => if b < v then v else b) best

/-- `np.bincount(xs, minlength)`: occurrence counts of each value, in a list
whose length is the larger of `minlength` and one more than the largest
value present. -/
def bincount (minlength : Nat) (xs : List Nat) : List Nat :=
  (List.range (max minlength (xs.foldl (fun m a => max m (a + 1)) 0))).map
    (fun k => xs.count k)

/-- Zero `C x C` matrix, `np.zeros((numClasses, numClasses))`. -/
def zeroMat (numClasses : Nat) : List (List Nat) :=
  List.replicate numClasses (List.replicate numClasses 0)

/-- Elementwise matrix addition, `confusion_mat += conf`. -/
def matAdd (a b : List (List Nat)) : List (List Nat) :=
  List.zipWith (fun ra rb => List.zipWith (fun x y => x + y) ra rb) a b

/-- Entry accessor for a matrix represented as a list of rows. -/
def matEntry (m : List (List Nat)) (i j : Nat) : Nat :=
  (m.getD i []).getD j 0

/-- The per-batch confusion matrix of `Trainer.get_confusion_matrix`
(train.py lines 262-266): form the combined per-pixel index
`pred + numClasses * gt`, bin-count it into at least `numClasses ^ 2`
buckets, and reshape the bucket list into a `numClasses x numClasses`
matrix in row-major order.  The batch is given as the flattened per-pixel
predicted labels and ground-truth labels. -/
def confusionBatch (numClasses : Nat) (pred_labels gt_labels : List Nat) :
    List (List Nat) :=
  let x := List.zipWith (fun p g => p + numClasses * g) pred_labels gt_labels
  let bincount_2d := bincount (numClasses ^ 2) x
  (List.range numClasses).map
    (fun r => (List.range numClasses).map
      (fun c => bincount_2d.getD (r * numClasses + c) 0))

/-- `Trainer.get_confusion_matrix` (train.py lines 248-268): start from the
zero matrix and add the per-batch confusion matrix of every batch of the
evaluation stream. -/
def get_confusion_matrix (numClasses : Nat)
    (batches : List (List Nat × List Nat)) : List (List Nat) :=
  batches.foldl (fun acc pg => matAdd acc (confusionBatch numClasses pg.1 pg.2))
    (zeroMat numClasses)

/-- Count of pixels of a batch whose (predicted, ground-truth) pair equals
the given one. -/
def pixelPairCount (pred_labels gt_labels : List Nat) (p g : Nat) : Nat :=
  (List.zip pred_labels gt_labels).countP (fun pg => pg.1 == p && pg.2 == g)

/-- The keyword parameters accepted by `Trainer.__init__` (train.py lines
13-15). -/
def trainerInitKeywords : List String :=
  ["gan_reg", "weight_clip", "grad_clip", "noise_scale", "disc_lr", "gen_lr",
   "train_gan", "experiment_dir", "resume", "load_iter"]

/-- The keyword arguments passed to the `Trainer` constructor by the main
entry point (main.py lines 104-108). -/
def mainTrainerCallKeywords : List String :=
  ["gan_reg", "d_iters", "weight_clip", "disc_lr", "gen_lr", "beta1",
   "train_gan", "experiment_dir", "resume"]

/-- A Python call raises `TypeError` for an unexpected keyword argument when
some passed keyword is not among the declared parameter names. -/
def callRaisesTypeError (passed accepted : List String) : Bool :=
  passed.any (fun k => !(accepted.contains k))

/-- The atomic-checkpoint-write pattern asserted by the claim: the operation
trace first writes the record to a temporary location different from the
final path, and later renames or copies that temporary file into the final
path. -/
def atomicWritePattern (ops : List FsOp) (finalPath : String) : Prop :=
  ∃ tmp record, tmp ≠ finalPath ∧ ops.head? = some (FsOp.write tmp record) ∧
    (FsOp.rename tmp finalPath ∈ ops ∨ FsOp.copyfile tmp finalPath ∈ ops)

/-!
## Claim theorems
-/

/-- C9: the main entry point constructs `Trainer` with keyword arguments
`d_iters` and `beta1`, neither of which `Trainer.__init__` declares, so the
construction raises a `TypeError` before any training tick. -/
theorem C9_unexpected_keyword_type_error :
    callRaisesTypeError mainTrainerCallKeywords trainerInitKeywords = true ∧
    mainTrainerCallKeywords.contains "d_iters" = true ∧
    trainerInitKeywords.contains "d_iters" = false ∧
    mainTrainerCallKeywords.contains "beta1" = true ∧
    trainerInitKeywords.contains "beta1" = false := by
  decide

/-- C1 counterexample: with `gIters = 5, dIters = 5` the claimed scheduler
classifies iteration 5 as a DISCRIMINATOR step (per the claim, iterations
5-9 train the discriminator only), yet the actual training step executed at
iteration 5 with adversarial training enabled contains a generator optimizer
update, so the claimed alternation is false on the code. -/
theorem C1_counterexample :
    specSchedulerDecide 5 5 5 = Decision.DISCRIMINATOR ∧
    (trainStepEventsAt true 5).contains (TrainEvent.optStep NetRole.generator) = true := by
  decide

/-- C1 amended: the trainer has no alternation scheduler.  At every global
iteration the executed step updates the generator, and it updates the
discriminator exactly when adversarial training is enabled, independent of
the iteration counter. -/
theorem C1_no_alternation (train_gan : Bool) (globalIteration : Nat) :
    (trainStepEventsAt train_gan globalIteration).contains
        (TrainEvent.optStep NetRole.generator) = true ∧
    (trainStepEventsAt train_gan globalIteration).contains
        (TrainEvent.optStep NetRole.discriminator) = train_gan := by
  cases train_gan <;> exact ⟨rfl, rfl⟩

/-- C2: the adversarial branch of `_train_batch` detaches the generator
output before feeding it to the discriminator (train.py line 90), so the
adversarial term `g_loss` of the generator objective does not depend on the
generator parameters: backpropagating `gen_loss` reaches the generator only
through the segmentation term, contradicting the claim (and the intent
stated in the comment at train.py line 87) that the adversarial term
contributes gradient to the generator update. -/
theorem C2_adversarial_term_contributes_no_gradient :
    dependsOnGen g_loss = false ∧
    dependsOnGen segmentation_loss = true ∧
    ∀ gan_reg : ℚ, dependsOnGen (gen_loss gan_reg) = dependsOnGen segmentation_loss :=
  ⟨rfl, rfl, fun _ => rfl⟩

/-- C7: when adversarial training is active but the checkpoint has no
`disc_dict` block, `load_model` still restores the four resume fields and
the generator dictionaries from the checkpoint, and leaves the
discriminator, its optimizer and `gan_reg` untouched (the function is total,
so no error is raised). -/
theorem C7_partial_checkpoint (s : TrainerState) (c : Checkpoint)
    (hdisc : s.disc.isSome = true) (hblock : c.disc_block = none) :
    (load_from_checkpoint s c).disc = s.disc ∧
    (load_from_checkpoint s c).gan_reg = s.gan_reg ∧
    load_from_checkpoint s c =
      { s with
        start_iter := c.iter
        start_total_iters := c.total_iters
        start_epoch := c.epoch
        best_mIOU := c.best_mIOU
        gen_params := c.gen_dict
        gen_opt := c.gen_opt } := by
  cases hd : s.disc <;> simp [load_from_checkpoint, hblock, hd]

/-- C7 witness: a concrete adversarial trainer state and a concrete
checkpoint lacking the discriminator block. -/
theorem C7_witness :
    (load_from_checkpoint (initTrainerState 5 6 (some (2, 3)) 1)
        ⟨3, 41, some 341, 7, (1 : ℚ)/2, 8, none⟩).disc = some (2, 3) ∧
    (load_from_checkpoint (initTrainerState 5 6 (some (2, 3)) 1)
        ⟨3, 41, some 341, 7, (1 : ℚ)/2, 8, none⟩).gan_reg = 1 ∧
    load_from_checkpoint (initTrainerState 5 6 (some (2, 3)) 1)
        ⟨3, 41, some 341, 7, (1 : ℚ)/2, 8, none⟩ =
      { initTrainerState 5 6 (some (2, 3)) 1 with
        start_iter := 41
        start_total_iters := some 341
        start_epoch := 3
        best_mIOU := (1 : ℚ)/2
        gen_params := 7
        gen_opt := 8 } :=
  C7_partial_checkpoint (initTrainerState 5 6 (some (2, 3)) 1)
    ⟨3, 41, some 341, 7, (1 : ℚ)/2, 8, none⟩ rfl rfl

/-- C8: when the checkpoint file is missing, `load_model` is a no-op (the
non-fatal branch), so a fresh trainer keeps its initialization values:
`start_iter = 0`, `start_total_iters = 0`, `start_epoch = 0`,
`best_mIOU = 0`, and untouched model and optimizer states. -/
theorem C8_missing_checkpoint (fs : String → Option Checkpoint)
    (gp go : StateDict) (d : Option (StateDict × StateDict)) (r : ℚ)
    (li : Option Nat) (h : fs (loadPath li) = none) :
    load_model fs (initTrainerState gp go d r) li = initTrainerState gp go d r ∧
    (initTrainerState gp go d r).start_iter = 0 ∧
    (initTrainerState gp go d r).start_total_iters = some 0 ∧
    (initTrainerState gp go d r).start_epoch = 0 ∧
    (initTrainerState gp go d r).best_mIOU = 0 ∧
    (initTrainerState gp go d r).gen_params = gp ∧
    (initTrainerState gp go d r).gen_opt = go ∧
    (initTrainerState gp go d r).disc = d := by
  refine ⟨?_, rfl, rfl, rfl, rfl, rfl, rfl, rfl⟩
  unfold load_model
  rw [h]

/-- C8 witness: an empty file system and a fresh trainer state. -/
theorem C8_witness :
    load_model (fun _ => none) (initTrainerState 5 6 none 1) none =
        initTrainerState 5 6 none 1 ∧
    (initTrainerState 5 6 none 1).start_iter = 0 ∧
    (initTrainerState 5 6 none 1).start_total_iters = some 0 ∧
    (initTrainerState 5 6 none 1).start_epoch = 0 ∧
    (initTrainerState 5 6 none 1).best_mIOU = 0 ∧
    (initTrainerState 5 6 none 1).gen_params = 5 ∧
    (initTrainerState 5 6 none 1).gen_opt = 6 ∧
    (initTrainerState 5 6 none 1).disc = none :=
  C8_missing_checkpoint (fun _ => none) 5 6 none 1 none rfl

/-- Helper: after the operations of a best-promoting save, the best path
holds exactly the saved record. -/
theorem applyOps_save_best (fs : String → Option Checkpoint) (ck : Checkpoint) :
    applyOps fs (save_model_ops ck true) "best.pth.tar" = some ck := by
  simp [save_model_ops, applyOps]

/-- Helper: after any save, the last path holds exactly the saved record. -/
theorem applyOps_save_last (fs : String → Option Checkpoint) (ck : Checkpoint)
    (is_best : Bool) :
    applyOps fs (save_model_ops ck is_best) "last.pth.tar" = some ck := by
  cases is_best <;> simp [save_model_ops, applyOps]

/-- Helper: the four resume fields and the generator dictionaries of the
state produced by `load_from_checkpoint` always come from the checkpoint,
whatever the discriminator situation. -/
theorem load_from_checkpoint_fields (s : TrainerState) (c : Checkpoint) :
    (load_from_checkpoint s c).start_iter = c.iter ∧
    (load_from_checkpoint s c).start_total_iters = c.total_iters ∧
    (load_from_checkpoint s c).start_epoch = c.epoch ∧
    (load_from_checkpoint s c).best_mIOU = c.best_mIOU ∧
    (load_from_checkpoint s c).gen_params = c.gen_dict ∧
    (load_from_checkpoint s c).gen_opt = c.gen_opt := by
  unfold load_from_checkpoint
  rcases hd : s.disc with _ | d
  · simp
  · rcases hb : c.disc_block with _ | ⟨dd, dop, reg⟩ <;> simp

/-- C3 counterexample: save the trainer state at `epoch = 3,
iterationInEpoch = 40, totalIterations = 340` with best promotion, reload
through the file system, and the restored `start_iter` is 41, not the saved
40 (and `start_total_iters` is 341, not 340): the round trip is not the
identity on the iteration fields. -/
theorem C3_counterexample :
    (load_model
        (applyOps (fun _ => none)
          (save_model_ops (mkSaveDict (initTrainerState 5 6 none 1) 40 340 3 ((1 : ℚ)/2)) true))
        (initTrainerState 5 6 none 1) none).start_iter = 41 ∧
    (41 : Nat) ≠ 40 ∧
    (load_model
        (applyOps (fun _ => none)
          (save_model_ops (mkSaveDict (initTrainerState 5 6 none 1) 40 340 3 ((1 : ℚ)/2)) true))
        (initTrainerState 5 6 none 1) none).start_total_iters = some 341 := by
  refine ⟨?_, by decide, ?_⟩ <;>
    simp [load_model, loadPath, applyOps_save_best, load_from_checkpoint,
      mkSaveDict, initTrainerState]

/-- C3 amended: the checkpoint round trip restores `start_epoch = e` and
`best_mIOU = b` identically, but restores `start_iter = i + 1` and
`start_total_iters = t + 1`: `save_model` stores the successor of both
iteration counters, so a resume from a save made during the tick at
`totalIterations = 340` serves the next tick at 341 (the tick after the one
that triggered the save), not 340. -/
theorem C3_checkpoint_roundtrip (fs : String → Option Checkpoint)
    (s s2 : TrainerState) (i t e : Nat) (b : ℚ) :
    (load_model (applyOps fs (save_model_ops (mkSaveDict s i t e b) true)) s2
        none).start_epoch = e ∧
    (load_model (applyOps fs (save_model_ops (mkSaveDict s i t e b) true)) s2
        none).start_iter = i + 1 ∧
    (load_model (applyOps fs (save_model_ops (mkSaveDict s i t e b) true)) s2
        none).start_total_iters = some (t + 1) ∧
    (load_model (applyOps fs (save_model_ops (mkSaveDict s i t e b) true)) s2
        none).best_mIOU = b := by
  have hload : load_model (applyOps fs (save_model_ops (mkSaveDict s i t e b) true)) s2
      none = load_from_checkpoint s2 (mkSaveDict s i t e b) := by
    unfold load_model
    rw [show loadPath none = "best.pth.tar" from rfl, applyOps_save_best fs _]
  obtain ⟨h1, h2, h3, h4, _, _⟩ := load_from_checkpoint_fields s2 (mkSaveDict s i t e b)
  rw [hload]
  exact ⟨h3, h1.trans rfl, h2.trans rfl, h4⟩

/-- C6 counterexample: a concrete non-best save performs exactly one file
operation, a direct `torch.save` write to the final path `last.pth.tar`
itself; there is no write to a distinct temporary location followed by a
rename or copy into place, so the claimed atomic-write pattern fails. -/
theorem C6_counterexample :
    ¬ atomicWritePattern
        (save_model_ops (mkSaveDict (initTrainerState 5 6 none 1) 40 340 3 ((1 : ℚ)/2)) false)
        "last.pth.tar" := by
  rintro ⟨tmp, record, hne, hhead, _⟩
  apply hne
  have : FsOp.write "last.pth.tar"
      (mkSaveDict (initTrainerState 5 6 none 1) 40 340 3 ((1 : ℚ)/2)) =
      FsOp.write tmp record := by
    simpa [save_model_ops] using hhead
  cases this
  rfl

/-- C6 amended: `save_model` writes the record directly to its final path
`last.pth.tar` as its first operation, performs no rename anywhere in the
trace, and synchronously completes within the call: after the operations
run, the full record is readable at `last.pth.tar`, and after a best save it
is also readable at `best.pth.tar`.  There is no temporary-location write,
so atomicity against a crash mid-write is not provided. -/
theorem C6_save_writes_final_path_directly (fs : String → Option Checkpoint)
    (ck : Checkpoint) (is_best : Bool) :
    (save_model_ops ck is_best).head? = some (FsOp.write "last.pth.tar" ck) ∧
    (∀ op ∈ save_model_ops ck is_best, op.isRename = false) ∧
    applyOps fs (save_model_ops ck is_best) "last.pth.tar" = some ck ∧
    applyOps fs (save_model_ops ck true) "best.pth.tar" = some ck := by
  refine ⟨?_, ?_, applyOps_save_last fs ck is_best, applyOps_save_best fs ck⟩
  · cases is_best <;> rfl
  · intro op hop
    cases is_best <;> simp [save_model_ops] at hop <;>
      cases hop <;> subst_vars <;> rfl

/-- Helper: the `is_best` flag of one evaluation tick is true exactly when
the incoming score is at least the running best. -/
theorem evalTickBest_flag (best val : ℚ) :
    (evalTickBest best val).2 = true ↔ best ≤ val := by
  unfold evalTickBest
  by_cases h : best < val <;>
    simp [h, decide_eq_true_iff]
  · exact le_of_lt h
  · constructor
    · intro he
      exact le_of_eq he
    · intro hle
      exact le_antisymm hle (le_of_not_lt h)

/-- C4 counterexample: two evaluation ticks with equal scores both set the
`is_best` flag, so the second tick copies the checkpoint over the best
record even though its score does not strictly exceed the previously
observed score. -/
theorem C4_counterexample :
    runEvalTicks 0 [(1 : ℚ)/2, (1 : ℚ)/2] = [true, true] ∧
    ¬ ((1 : ℚ)/2 < (1 : ℚ)/2) ∧
    (save_model_ops (mkSaveDict (initTrainerState 5 6 none 1) 0 0 0 ((1 : ℚ)/2)) true).contains
        (FsOp.copyfile "last.pth.tar" "best.pth.tar") = true := by
  refine ⟨?_, by norm_num, by rfl⟩
  show (evalTickBest 0 ((1 : ℚ)/2)).2 :: runEvalTicks (evalTickBest 0 ((1 : ℚ)/2)).1
      [(1 : ℚ)/2] = [true, true]
  norm_num [runEvalTicks, evalTickBest]

/-- C4 amended: the `is_best` flag that triggers copying the just-written
checkpoint to `best.pth.tar` is set exactly when the current validation
score is greater than or equal to the running best (the maximum of the
initial best and all previously observed scores); in particular a score
that merely equals the running best does overwrite the best record. -/
theorem C4_is_best_iff_ge_running_best (best : ℚ) (vs : List ℚ) (k : Nat)
    (hk : k < vs.length) :
    (runEvalTicks best vs).getD k false = true ↔
      foldBest best (vs.take k) ≤ vs.getD k 0 := by
  induction vs generalizing best k with
  | nil => simp at hk
  | cons v vs ih =>
    cases k with
    | zero =>
      show (runEvalTicks best (v :: vs)).getD 0 false = true ↔ best ≤ v
      unfold runEvalTicks
      simpa using evalTickBest_flag best v
    | succ k =>
      have hk2 : k < vs.length := by simpa using hk
      show ((evalTickBest best v).2 :: runEvalTicks (evalTickBest best v).1 vs).getD
          (k + 1) false = true ↔
        foldBest best (v :: vs.take k) ≤ (v :: vs).getD (k + 1) 0
      have hfold : foldBest best (v :: vs.take k) =
          foldBest (evalTickBest best v).1 (vs.take k) := rfl
      simpa [hfold] using ih (evalTickBest best v).1 k hk2

/-- C4 witness: a concrete run where the second score strictly exceeds the
first, exercising the flag equivalence at index 1. -/
theorem C4_witness :
    1 < [(1 : ℚ)/2, (3 : ℚ)/4].length ∧
    ((runEvalTicks 0 [(1 : ℚ)/2, (3 : ℚ)/4]).getD 1 false = true ↔
      foldBest 0 ([(1 : ℚ)/2, (3 : ℚ)/4].take 1) ≤ [(1 : ℚ)/2, (3 : ℚ)/4].getD 1 0) :=
  ⟨by norm_num, C4_is_best_iff_ge_running_best 0 [(1 : ℚ)/2, (3 : ℚ)/4] 1 (by norm_num)⟩

/-- Shape of a `C x C` matrix represented as a list of rows. -/
def IsMat (C : Nat) (m : List (List Nat)) : Prop :=
  m.length = C ∧ ∀ row ∈ m, row.length = C

/-- Helper: `getD` at an in-range index is `getElem`. -/
theorem getD_of_lt {α : Type} (l : List α) (i : Nat) (d : α) (h : i < l.length) :
    l.getD i d = l[i] := by
  rw [List.getD_eq_getElem?_getD, List.getElem?_eq_getElem h]
  rfl

/-- Helper: `getD` on a mapped range evaluates the function at an in-range
index. -/
theorem getD_map_range {α : Type} (f : Nat → α) (C k : Nat) (hk : k < C) (d : α) :
    ((List.range C).map f).getD k d = f k := by
  rw [List.getD_eq_getElem?_getD, List.getElem?_map, List.getElem?_range hk]
  rfl

/-- Helper: reading a bucket below `minlength` from a bincount yields the
occurrence count of that bucket value. -/
theorem bincount_getD (minlength : Nat) (xs : List Nat) (k : Nat)
    (hk : k < minlength) :
    (bincount minlength xs).getD k 0 = xs.count k := by
  unfold bincount
  have hlen : k < max minlength (xs.foldl (fun m a => max m (a + 1)) 0) :=
    lt_of_lt_of_le hk (le_max_left _ _)
  exact getD_map_range _ _ k hlen 0

/-- Helper: `count` is `countP` of the equality test. -/
theorem count_eq_countP_nat (xs : List Nat) (k : Nat) :
    xs.count k = xs.countP (fun a => a == k) := by
  simp [List.count]

/-- Helper: counting on a `zipWith` is counting the composed predicate on
the zip. -/
theorem countP_zipWith (f : Nat → Nat → Nat) (p : Nat → Bool) :
    ∀ (as bs : List Nat),
      (List.zipWith f as bs).countP p = (as.zip bs).countP (fun ab => p (f ab.1 ab.2))
  | [], _ => by simp
  | _ :: _, [] => by simp
  | a :: as, b :: bs => by
    simp only [List.zipWith_cons_cons, List.zip_cons_cons, List.countP_cons]
    rw [countP_zipWith f p as bs]

/-- Helper: the combined per-pixel index `p + C * g` determines the pair
`(p, g)` uniquely inside a `C x C` bucket grid. -/
theorem combined_index_eq (C p g i j : Nat) (hp : p < C) (hj : j < C) :
    p + C * g = i * C + j ↔ p = j ∧ g = i := by
  constructor
  · intro h
    have hC : 0 < C := by omega
    have hmod : (p + C * g) % C = (i * C + j) % C := by rw [h]
    rw [Nat.add_mul_mod_self_left, Nat.mod_eq_of_lt hp, Nat.mul_comm i C,
      Nat.mul_add_mod, Nat.mod_eq_of_lt hj] at hmod
    subst hmod
    have hcg : C * g = C * i := by
      have := h
      rw [Nat.mul_comm i C] at this
      omega
    exact ⟨rfl, Nat.eq_of_mul_eq_mul_left hC hcg⟩
  · rintro ⟨rfl, rfl⟩
    ring

/-- Helper: entry `(i, j)` of a per-batch confusion matrix counts pixels
with ground truth `i` and prediction `j`. -/
theorem confusionBatch_entry (C : Nat) (pred_labels gt_labels : List Nat)
    (i j : Nat) (hi : i < C) (hj : j < C)
    (hp : ∀ p ∈ pred_labels, p < C) :
    matEntry (confusionBatch C pred_labels gt_labels) i j =
      pixelPairCount pred_labels gt_labels j i := by
  have hbucket : i * C + j < C ^ 2 := by
    have h2 : i * C + C = (i + 1) * C := by ring
    have h3 : (i + 1) * C ≤ C * C := Nat.mul_le_mul_right C hi
    have h4 : C ^ 2 = C * C := by ring
    omega
  have h1 : matEntry (confusionBatch C pred_labels gt_labels) i j =
      (bincount (C ^ 2)
        (List.zipWith (fun p g => p + C * g) pred_labels gt_labels)).getD
        (i * C + j) 0 := by
    show (((List.range C).map
        (fun r => (List.range C).map
          (fun c => (bincount (C ^ 2)
            (List.zipWith (fun p g => p + C * g) pred_labels gt_labels)).getD
            (r * C + c) 0))).getD i []).getD j 0 = _
    rw [getD_map_range _ C i hi, getD_map_range _ C j hj]
  rw [h1, bincount_getD _ _ _ hbucket, count_eq_countP_nat, countP_zipWith]
  unfold pixelPairCount
  apply List.countP_congr
  rintro ⟨p, g⟩ hmem
  obtain ⟨hpm, _⟩ := List.of_mem_zip hmem
  simp only [beq_iff_eq, Bool.and_eq_true]
  exact combined_index_eq C p g i j (hp p hpm) hj

/-- Helper: the zero matrix has zero entries everywhere. -/
theorem zeroMat_entry (C i j : Nat) : matEntry (zeroMat C) i j = 0 := by
  unfold matEntry zeroMat
  rcases Nat.lt_or_ge i C with h | h
  · have h1 : (List.replicate C (List.replicate C (0 : Nat))).getD i [] =
        List.replicate C (0 : Nat) := by
      rw [getD_of_lt _ _ _ (by simpa using h)]
      simp
    rw [h1]
    rcases Nat.lt_or_ge j C with h2 | h2
    · rw [getD_of_lt _ _ _ (by simpa using h2)]
      simp
    · rw [List.getD_eq_getElem?_getD, List.getElem?_eq_none (by simpa using h2)]
      rfl
  · have h1 : (List.replicate C (List.replicate C (0 : Nat))).getD i [] = [] := by
      rw [List.getD_eq_getElem?_getD, List.getElem?_eq_none (by simpa using h)]
      rfl
    rw [h1]
    rfl

/-- Helper: the zero matrix is `C x C`. -/
theorem zeroMat_isMat (C : Nat) : IsMat C (zeroMat C) := by
  constructor
  · simp [zeroMat]
  · intro row hrow
    rw [List.eq_of_mem_replicate hrow]
    simp

/-- Helper: a per-batch confusion matrix is `C x C`. -/
theorem confusionBatch_isMat (C : Nat) (pred_labels gt_labels : List Nat) :
    IsMat C (confusionBatch C pred_labels gt_labels) := by
  constructor
  · simp [confusionBatch]
  · intro row hrow
    unfold confusionBatch at hrow
    obtain ⟨r, _, rfl⟩ := List.mem_map.mp hrow
    simp

/-- Helper: elementwise addition of two `C x C` matrices is `C x C`. -/
theorem matAdd_isMat (C : Nat) (a b : List (List Nat))
    (ha : IsMat C a) (hb : IsMat C b) : IsMat C (matAdd a b) := by
  constructor
  · simp [matAdd, List.length_zipWith, ha.1, hb.1]
  · intro row hrow
    unfold matAdd at hrow
    obtain ⟨k, hk, hrow⟩ := List.getElem_of_mem hrow
    have hka : k < a.length := by
      rw [List.length_zipWith] at hk
      omega
    have hkb : k < b.length := by
      rw [List.length_zipWith] at hk
      omega
    rw [List.getElem_zipWith] at hrow
    rw [← hrow, List.length_zipWith,
      ha.2 _ (List.getElem_mem hka), hb.2 _ (List.getElem_mem hkb)]
    simp

/-- Helper: entries of an elementwise sum of two `C x C` matrices are the
sums of the entries. -/
theorem matAdd_entry (C : Nat) (a b : List (List Nat))
    (ha : IsMat C a) (hb : IsMat C b) (i j : Nat) (hi : i < C) (hj : j < C) :
    matEntry (matAdd a b) i j = matEntry a i j + matEntry b i j := by
  have hia : i < a.length := ha.1 ▸ hi
  have hib : i < b.length := hb.1 ▸ hi
  have hiz : i < (matAdd a b).length := by
    simp only [matAdd, List.length_zipWith]
    omega
  have hja : j < (a[i]).length := by
    rw [ha.2 _ (List.getElem_mem hia)]
    exact hj
  have hjb : j < (b[i]).length := by
    rw [hb.2 _ (List.getElem_mem hib)]
    exact hj
  have hjz : j < (List.zipWith (fun x y => x + y) a[i] b[i]).length := by
    rw [List.length_zipWith]
    omega
  have hrow : (matAdd a b).getD i [] = List.zipWith (fun x y => x + y) a[i] b[i] := by
    rw [getD_of_lt _ _ _ hiz]
    unfold matAdd
    rw [List.getElem_zipWith]
  unfold matEntry
  rw [hrow, getD_of_lt a i [] hia, getD_of_lt b i [] hib,
    getD_of_lt _ _ _ hjz, getD_of_lt _ _ _ hja, getD_of_lt _ _ _ hjb,
    List.getElem_zipWith]

/-- Helper: entry of the batch fold of `get_confusion_matrix`, generalized
over the accumulator. -/
theorem confusion_fold_entry (C i j : Nat) (hi : i < C) (hj : j < C) :
    ∀ (batches : List (List Nat × List Nat)) (acc : List (List Nat)),
      IsMat C acc →
      (∀ b ∈ batches, ∀ p ∈ b.1, p < C) →
      matEntry
          (batches.foldl (fun m pg => matAdd m (confusionBatch C pg.1 pg.2)) acc) i j =
        matEntry acc i j +
          (batches.map (fun b => pixelPairCount b.1 b.2 j i)).sum
  | [], acc, _, _ => by simp
  | b :: batches, acc, hacc, hbound => by
    have hb1 : ∀ p ∈ b.1, p < C := hbound b (List.mem_cons_self b batches)
    have hrest : ∀ b2 ∈ batches, ∀ p ∈ b2.1, p < C := fun b2 h2 =>
      hbound b2 (List.mem_cons_of_mem b h2)
    have hacc2 : IsMat C (matAdd acc (confusionBatch C b.1 b.2)) :=
      matAdd_isMat C _ _ hacc (confusionBatch_isMat C b.1 b.2)
    show matEntry (batches.foldl _ (matAdd acc (confusionBatch C b.1 b.2))) i j = _
    rw [confusion_fold_entry C i j hi hj batches _ hacc2 hrest,
      matAdd_entry C _ _ hacc (confusionBatch_isMat C b.1 b.2) i j hi hj,
      confusionBatch_entry C b.1 b.2 i j hi hj hb1]
    simp only [List.map_cons, List.sum_cons]
    omega

/-- Helper: the batch fold of `get_confusion_matrix` preserves the `C x C`
shape. -/
theorem confusion_fold_isMat (C : Nat) :
    ∀ (batches : List (List Nat × List Nat)) (acc : List (List Nat)),
      IsMat C acc →
      IsMat C (batches.foldl (fun m pg => matAdd m (confusionBatch C pg.1 pg.2)) acc)
  | [], _, hacc => hacc
  | b :: batches, _, hacc =>
    confusion_fold_isMat C batches _
      (matAdd_isMat C _ _ hacc (confusionBatch_isMat C b.1 b.2))

/-- C5 counterexample: with 2 classes and a single one-pixel batch predicted
class 1 with ground truth class 0, the matrix cell `(1, 0)` — which by the
claim counts pixels predicted 1 with ground truth 0 and so should be 1 — is
0; the count sits at cell `(0, 1)` instead, because the reshape of
`pred + numClasses * gt` puts ground truth on rows and prediction on
columns. -/
theorem C5_counterexample :
    matEntry (get_confusion_matrix 2 [([1], [0])]) 1 0 = 0 ∧
    pixelPairCount [1] [0] 1 0 = 1 ∧
    matEntry (get_confusion_matrix 2 [([1], [0])]) 0 1 = 1 := by
  decide

/-- C5 amended: `get_confusion_matrix` returns a `numClasses x numClasses`
matrix of non-negative pixel counts, built batch-by-batch from the combined
index `predictedClass + numClasses * groundTruthClass`, bin-counted into
`numClasses ^ 2` buckets, reshaped to `C x C` and summed across batches —
but cell `(i, j)` counts the pixels with ground truth class `i` and
predicted class `j` (the transpose of the orientation stated in the
claim). -/
theorem C5_confusion_matrix (C : Nat) (batches : List (List Nat × List Nat))
    (i j : Nat) (hi : i < C) (hj : j < C)
    (hbound : ∀ b ∈ batches, ∀ p ∈ b.1, p < C) :
    IsMat C (get_confusion_matrix C batches) ∧
    matEntry (get_confusion_matrix C batches) i j =
      (batches.map (fun b => pixelPairCount b.1 b.2 j i)).sum := by
  constructor
  · exact confusion_fold_isMat C batches (zeroMat C) (zeroMat_isMat C)
  · unfold get_confusion_matrix
    rw [confusion_fold_entry C i j hi hj batches (zeroMat C) (zeroMat_isMat C) hbound,
      zeroMat_entry]
    omega

/-- C5 witness: the literal three-class two-batch evaluation scenario of the
spec, read at cell `(0, 1)`: one pixel has ground truth 0 and prediction
1. -/
theorem C5_witness :
    ((0 : Nat) < 3 ∧ (1 : Nat) < 3 ∧
      ∀ b ∈ [([0, 1], [0, 1]), ([2, 1], [2, 0])], ∀ p ∈ b.1, p < 3) ∧
    (IsMat 3 (get_confusion_matrix 3 [([0, 1], [0, 1]), ([2, 1], [2, 0])]) ∧
      matEntry (get_confusion_matrix 3 [([0, 1], [0, 1]), ([2, 1], [2, 0])]) 0 1 =
        ([([0, 1], [0, 1]), ([2, 1], [2, 0])].map
          (fun b => pixelPairCount b.1 b.2 1 0)).sum) :=
  ⟨⟨by decide, by decide, by decide⟩,
    C5_confusion_matrix 3 [([0, 1], [0, 1]), ([2, 1], [2, 0])] 0 1
      (by decide) (by decide) (by decide)⟩

/-- Helper: the digit characters of base-10 rendering are decimal digits. -/
theorem digitChar_isDigit (m : Nat) (h : m < 10) :
    (Nat.digitChar m).isDigit = true := by
  interval_cases m <;> decide

/-- Helper: every character that base-10 `Nat.toDigitsCore` emits on top of
an all-digit accumulator is a decimal digit. -/
theorem toDigitsCore_isDigit (fuel n : Nat) (acc : List Char)
    (hacc : ∀ c ∈ acc, c.isDigit = true) :
    ∀ c ∈ Nat.toDigitsCore 10 fuel n acc, c.isDigit = true := by
  induction fuel generalizing n acc with
  | zero =>
    intro c hc
    rw [Nat.toDigitsCore] at hc
    exact hacc c hc
  | succ f ih =>
    intro c hc
    simp only [Nat.toDigitsCore] at hc
    have hacc2 : ∀ x ∈ Nat.digitChar (n % 10) :: acc, x.isDigit = true := by
      intro x hx
      rcases List.mem_cons.mp hx with rfl | hx2
      · exact digitChar_isDigit _ (Nat.mod_lt n (by omega))
      · exact hacc x hx2
    split at hc
    · exact hacc2 c hc
    · exact ih (n / 10) _ hacc2 c hc

/-- Helper: base-10 `Nat.toDigitsCore` with fuel left, or a nonempty
accumulator, never returns the empty list. -/
theorem toDigitsCore_ne_nil (fuel n : Nat) (acc : List Char)
    (h : fuel ≠ 0 ∨ acc ≠ []) : Nat.toDigitsCore 10 fuel n acc ≠ [] := by
  induction fuel generalizing n acc with
  | zero =>
    rw [Nat.toDigitsCore]
    tauto
  | succ f ih =>
    simp only [Nat.toDigitsCore]
    split
    · simp
    · exact ih _ _ (Or.inr (by simp))

/-- Helper: the decimal rendering of a natural number starts with a decimal
digit. -/
theorem repr_head_isDigit (n : Nat) :
    ∃ c cs, (Nat.repr n).data = c :: cs ∧ c.isDigit = true := by
  have hne : Nat.toDigitsCore 10 (n + 1) n [] ≠ [] :=
    toDigitsCore_ne_nil (n + 1) n [] (Or.inl (by omega))
  obtain ⟨c, cs, hcs⟩ := List.exists_cons_of_ne_nil hne
  refine ⟨c, cs, hcs, ?_⟩
  exact toDigitsCore_isDigit (n + 1) n [] (by simp) c
    (hcs ▸ List.mem_cons_self c cs)

/-- Helper: a decimal rendering followed by any suffix never equals a string
whose first character is not a decimal digit. -/
theorem reprAppend_ne (n : Nat) (sfx target : String)
    (hhead : (target.data.head?.map Char.isDigit).getD false = false) :
    Nat.repr n ++ sfx ≠ target := by
  intro h
  obtain ⟨c, cs, hdata, hdig⟩ := repr_head_isDigit n
  have hd := congrArg String.data h
  rw [String.data_append, hdata] at hd
  rw [← hd] at hhead
  simp only [List.cons_append, List.head?_cons, Option.map_some',
    Option.getD_some] at hhead
  exact Bool.noConfusion (hdig.symm.trans hhead)

/-- C10: `load_model` opens `best.pth.tar` when `load_iter` is `None` and
`str(load_iter) + '.pth.tar'` otherwise; no load path ever equals the
`last.pth.tar` record that `save_model` writes, and on a file system holding
only the two files `save_model` can produce, any numeric `load_iter` finds
no checkpoint and `load_model` falls into the fresh-state branch. -/
theorem C10_load_never_restores_last (fs : String → Option Checkpoint)
    (s : TrainerState) (n : Nat)
    (hfs : ∀ p, (fs p).isSome = true → p = "last.pth.tar" ∨ p = "best.pth.tar") :
    loadPath none = "best.pth.tar" ∧
    loadPath (some n) = Nat.repr n ++ ".pth.tar" ∧
    (∀ li : Option Nat, loadPath li ≠ "last.pth.tar") ∧
    load_model fs s (some n) = s := by
  refine ⟨rfl, rfl, ?_, ?_⟩
  · rintro (_ | m)
    · decide
    · exact reprAppend_ne m ".pth.tar" "last.pth.tar" (by decide)
  · unfold load_model
    cases hcase : fs (loadPath (some n)) with
    | none => rfl
    | some c =>
      exfalso
      rcases hfs _ (by rw [hcase]; rfl) with h | h
      · exact reprAppend_ne n ".pth.tar" "last.pth.tar" (by decide) h
      · exact reprAppend_ne n ".pth.tar" "best.pth.tar" (by decide) h

/-- C10 witness: a file system holding only the `last.pth.tar` record that a
save produced, probed with `load_iter = 340`. -/
theorem C10_witness :
    loadPath none = "best.pth.tar" ∧
    loadPath (some 340) = Nat.repr 340 ++ ".pth.tar" ∧
    (∀ li : Option Nat, loadPath li ≠ "last.pth.tar") ∧
    load_model
        (fun p => if p = "last.pth.tar"
          then some ⟨0, 1, some 1, 5, 0, 6, none⟩ else none)
        (initTrainerState 5 6 none 1) (some 340) =
      initTrainerState 5 6 none 1 :=
  C10_load_never_restores_last
    (fun p => if p = "last.pth.tar" then some ⟨0, 1, some 1, 5, 0, 6, none⟩ else none)
    (initTrainerState 5 6 none 1) 340
    (fun p hp => by
      by_cases h : p = "last.pth.tar"
      · exact Or.inl h
      · simp only [h, if_false, Option.isSome_none] at hp
        exact Bool.noConfusion hp)

end SegTrain
